import Mathlib

/-!
Verification of the openclaw Gateway/Agent orchestration platform against
its natural-language specification.

The development shallowly embeds the Python source:

* `src/openclaw-agent/executor/actions.py` — the Agent-side action handlers
  (`_run` subprocess wrapper, `file_write`, `web_search`).
* `src/openclaw-gateway/orchestrator/worker.py` — the project `Worker`
  (`run`, `_execute_task`, `_conversation_loop`, `_execute_tool`).
* `src/openclaw-gateway/skills/search.py` — `SearchSkill.execute`.
* `src/openclaw-gateway/agents/planner_agent.py` — `PlannerAgent.parse_plan_json`.
* `src/openclaw-gateway/agents/manager_watcher.py` —
  `ManagerWatcherAgent.heartbeat_loop`.

Pure functions become Lean functions; stateful loops become explicit state
passing driven by finite lists of environment observations (one entry per
external call the Python code makes); fallible code returns `Option`/sum
results.  External effects (subprocess launch, HTTP dispatch, DB writes)
are reified as values in effect-trace lists so that theorems can speak
about which side effects a code path performs.
-/

namespace Clawd

/-! ## Python/JSON value model

Parameters (`params` / `tool_input` dicts) coming over the JSON channel.
Floats are not needed by any claim settled here, so the value universe is
strings, integers, booleans, `None`, and opaque composites.  (`.composite`
stands for any list/dict value; the embedded code only ever needs to know
that such a value is not a string/int/bool/None.)
-/

inductive PVal where
  | str (s : String)
  | int (n : Int)
  | bool (b : Bool)
  | none
  | composite
  deriving Repr, DecidableEq

/-- Python truthiness for the values in `PVal` (composite values are
treated as truthy; the embedded code only applies truthiness tests to
strings, so this choice is never load-bearing). -/
def PVal.truthy : PVal → Bool
  | .str s => !s.isEmpty
  | .int n => n ≠ 0
  | .bool b => b
  | .none => false
  | .composite => true

/-- A parameter dictionary: association list keyed by strings.
`lookup` mirrors `dict.get(key)` (first binding wins, like a dict with
unique keys). -/
def PDict := List (String × PVal)

instance : DecidableEq PDict := inferInstanceAs (DecidableEq (List (String × PVal)))

instance : Repr PDict := inferInstanceAs (Repr (List (String × PVal)))

def PDict.get? (d : PDict) (k : String) : Option PVal :=
  (d.find? (fun p => p.1 = k)).map (·.2)

/-- `dict.get(key, default)`. -/
def PDict.getD (d : PDict) (k : String) (dflt : PVal) : PVal :=
  (d.get? k).getD dflt

/-- Python `\s` on ASCII: space, tab, newline, carriage return, form feed,
vertical tab. -/
def pyIsSpace (c : Char) : Bool :=
  c = ' ' ∨ c = '\t' ∨ c = '\n' ∨ c = '\r' ∨ c = '\x0c' ∨ c = '\x0b'

/-- Strip leading and trailing whitespace from a character list
(Python `str.strip()` restricted to ASCII whitespace). -/
def pyStrip (l : List Char) : List Char :=
  ((l.dropWhile pyIsSpace).reverse.dropWhile pyIsSpace).reverse

/-- Model of Python `int(x)` on decimal string literals: strips
whitespace, accepts an optional sign followed by one or more digits.
(Underscore separators and non-decimal bases are not modelled; no claim
depends on them.)  Returns `none` where Python raises `ValueError`. -/
def pyIntOfString (s : String) : Option Int :=
  let t := pyStrip s.toList
  let core := match t with
    | '-' :: rest => rest
    | '+' :: rest => rest
    | _ => t
  if core ≠ [] ∧ core.all Char.isDigit then
    let mag : Int := Int.ofNat (core.foldl (fun acc c => acc * 10 + (c.toNat - 48)) 0)
    some (match t with | '-' :: _ => -mag | _ => mag)
  else
    Option.none

/-- Model of Python `int(x)`: identity on ints, 0/1 on bools, literal
parsing on strings; `None` and composite values raise (`Option.none`,
standing for `TypeError`). -/
def pyInt : PVal → Option Int
  | .int n => some n
  | .bool b => some (if b then 1 else 0)
  | .str s => pyIntOfString s
  | .none => Option.none
  | .composite => Option.none

/-! ## Agent action handlers (`src/openclaw-agent/executor/actions.py`) -/

/-- The `{returncode, stdout, stderr}` dict every action handler returns. -/
structure RunDict where
  returncode : Int
  stdout : String
  stderr : String
  deriving Repr, DecidableEq

/-- What the spawned subprocess did: ran to completion within the timeout
(with decoded stdout/stderr), or was still running when the timeout fired. -/
inductive ProcBehaviour where
  | completed (returncode : Int) (stdout stderr : String)
  | timedOut
  deriving Repr, DecidableEq

/-- Result of `_run`: the returned dict plus whether `proc.kill()` was
invoked. -/
structure RunOutcome where
  killed : Bool
  dict : RunDict
  deriving Repr, DecidableEq

/-- `_SUBPROCESS_TIMEOUT` (actions.py line 30). -/
def SUBPROCESS_TIMEOUT : Nat := 120

/-- Embedding of `_run` (actions.py lines 52-88).  The subprocess itself is
the environment, supplied as a `ProcBehaviour`.  On timeout the process is
killed and the handler returns returncode `-1` with the fixed stderr
message; on completion stdout is truncated to 8192 characters and stderr
to 4096 (Python slices the decoded strings). -/
def runAction (timeout : Nat := SUBPROCESS_TIMEOUT) (proc : ProcBehaviour) : RunOutcome :=
  match proc with
  | .timedOut =>
      { killed := true
        dict := { returncode := -1
                  stdout := ""
                  stderr := s!"Process timed out after {timeout}s and was killed." } }
  | .completed rc out err =>
      { killed := false
        dict := { returncode := rc
                  stdout := String.mk (out.toList.take 8192)
                  stderr := String.mk (err.toList.take 4096) } }

/-- File-system effect performed by `file_write`. -/
inductive FsEffect where
  | write (path : String) (content : String)
  deriving Repr, DecidableEq

/-- Result of `file_write`: effects performed plus the returned dict.
`Except.error msg` models the `ValueError` raised by `_require_param`. -/
structure FileWriteOutcome where
  effects : List FsEffect
  dict : RunDict
  deriving Repr, DecidableEq

/-- Embedding of `file_write` (actions.py lines 371-393).
`_require_param` (lines 91-96) demands a truthy string for `"file"`;
`content` defaults to `""`; non-string content is rejected; content whose
UTF-8 encoding exceeds 1 MiB is rejected before any write; otherwise the
write is attempted (`diskError` supplies an `OSError` message when the
environment makes the write fail). -/
def fileWrite (params : PDict) (diskError : Option String) :
    Except String FileWriteOutcome :=
  match params.getD "file" .none with
  | .str filepath =>
    if filepath.isEmpty then .error "Missing required parameter: 'file'"
    else
      match params.getD "content" (.str "") with
      | .str content =>
        if content.utf8ByteSize > 1048576 then
          .ok { effects := []
                dict := { returncode := 1, stdout := "", stderr := "Content exceeds 1 MB limit." } }
        else
          match diskError with
          | some err =>
              .ok { effects := [], dict := { returncode := 1, stdout := "", stderr := err } }
          | Option.none =>
              .ok { effects := [.write filepath content]
                    dict := { returncode := 0
                              stdout := "Wrote " ++ toString content.length ++ " bytes to "
                                ++ filepath ++ "."
                              stderr := "" } }
      | _ =>
          .ok { effects := []
                dict := { returncode := 1, stdout := "", stderr := "content must be a string." } }
  | _ => .error "Missing required parameter: 'file'"

/-- The number of results `web_search` (actions.py lines 224-248) actually
requests from the Brave/DDG backends: `params.get("num_results", 5)`, then
`int(...)` with `TypeError`/`ValueError` falling back to 5, then
`min(max(n, 1), 10)`. -/
def webSearchNumResults (params : PDict) : Int :=
  let raw := params.getD "num_results" (.int 5)
  let n := (pyInt raw).getD 5
  min (max n 1) 10

/-! ## Worker tool dispatch (`src/openclaw-gateway/orchestrator/worker.py`) -/

/-- `PLAN_AUTO_APPROVED` (worker.py lines 28-33): actions pre-approved when
the user approves a plan. -/
def PLAN_AUTO_APPROVED : List String :=
  ["file_write", "file_read", "list_directory", "create_directory",
   "git_init", "git_status", "git_add_all", "git_commit",
   "run_tests", "lint_project", "build_project", "install_dependencies",
   "open_in_vscode", "check_coding_agents", "run_coding_agent"]

/-- `ALWAYS_CONFIRM` (worker.py line 36): actions that always need
individual Telegram approval. -/
def ALWAYS_CONFIRM : List String := ["git_push", "gh_create_repo"]

/-- Side effects `Worker._execute_tool` can perform, in order. -/
inductive ToolEffect where
  | localSearch (query : PVal) (numResults : PVal)
      -- `await self.searcher.search(...)`: the gateway-process WebSearcher
  | approvalRequest (toolName : String)
      -- `await self.request_approval(project_id, tool_name, tool_input)`
  | agentPost (action : String) (confirmed : Bool)
      -- `_send_to_agent`: HTTP POST to the gateway `/action` endpoint,
      -- i.e. dispatch over the channel to the Local Agent
  deriving Repr, DecidableEq

def ToolEffect.isAgentPost : ToolEffect → Bool
  | .agentPost _ _ => true
  | _ => false

/-- Environment for one `_execute_tool` call: the operator's approval
decision, the WebSearcher's reply, and the formatted agent reply. -/
structure ExecuteToolEnv where
  approve : Bool
  searchReply : String
  agentReply : String

/-- Embedding of `Worker._execute_tool` (worker.py lines 428-449).
Returns the effect trace together with the string fed back into the
conversation.  `web_search` is served by the in-process searcher
("Web search is handled locally on EC2"); `ALWAYS_CONFIRM` names request
operator approval and on denial return the denial message without
dispatching; everything else is posted to the agent with
`confirmed = (tool_name in PLAN_AUTO_APPROVED)`. -/
def executeTool (env : ExecuteToolEnv) (toolName : String) (toolInput : PDict) :
    List ToolEffect × String :=
  if toolName = "web_search" then
    ([.localSearch (toolInput.getD "query" (.str "")) (toolInput.getD "num_results" (.int 5))],
     env.searchReply)
  else if toolName ∈ ALWAYS_CONFIRM then
    if env.approve then
      ([.approvalRequest toolName, .agentPost toolName true], env.agentReply)
    else
      ([.approvalRequest toolName], s!"Action '{toolName}' was denied by the user.")
  else
    ([.agentPost toolName (PLAN_AUTO_APPROVED.contains toolName)], env.agentReply)

/-! ## SearchSkill (`src/openclaw-gateway/skills/search.py`) -/

/-- Side effects of `SearchSkill.execute`: the only one it can perform is
`context.send_to_agent`, the channel dispatch to the Local Agent. -/
inductive SkillEffect where
  | sendToAgent (action : String) (params : PDict) (confirmed : Bool)
  deriving Repr, DecidableEq

/-- Embedding of `SearchSkill.execute` (search.py lines 35-41): any tool
other than `web_search` yields an error string and no effect; `web_search`
is dispatched to the agent over the channel with `confirmed=True`. -/
def searchSkillExecute (agentReply : String) (toolName : String) (toolInput : PDict) :
    List SkillEffect × String :=
  if toolName ≠ "web_search" then
    ([], s!"Unknown search tool: {toolName}")
  else
    ([.sendToAgent "web_search"
        [("query", toolInput.getD "query" (.str "")),
         ("num_results", toolInput.getD "num_results" (.int 5))] true],
     agentReply)

/-! ## Plan-JSON extraction (`src/openclaw-gateway/agents/planner_agent.py`)

`PlannerAgent.parse_plan_json` (lines 88-109) tries, in order:
1. `json.loads(text)` on the whole text;
2. `re.search(r"```" "(?:json)?\s*(\{.*?\})\s*" "```", text, re.DOTALL)`
   and `json.loads` on group 1;
3. `re.search(r"\{.*\}", text, re.DOTALL)` and `json.loads` on the match.
Returning the first success, else `None`.

The two regex searches are embedded as concrete string scans implementing
Python's leftmost-match semantics for these particular patterns.  In both
patterns backtracking is degenerate: after the literal fences /
whitespace runs, the next required character (`{`, `` ` ``) is never a
whitespace character, so the greedy `\s*` runs and the optional `json`
admit exactly one viable decomposition at each start position, and the
scans below are deterministic. -/

/-- After a candidate `}` at some position, the fenced pattern requires
`\s*` (greedy) followed by the closing ```` ``` ````. -/
def fenceCloses (l : List Char) : Bool :=
  "```".toList.isPrefixOf (l.dropWhile pyIsSpace)

/-- The lazy `.*?` body scan: the shortest body such that the following
`}` is followed by `\s*` and the closing fence.  `acc` holds the body
read so far, reversed. -/
def lazyFenceBody (acc : List Char) : List Char → Option (List Char)
  | [] => Option.none
  | c :: rest =>
    if c = '}' ∧ fenceCloses rest then some acc.reverse
    else lazyFenceBody (c :: acc) rest

/-- Try the fenced pattern anchored at the head of `l`; returns group 1
(`{body}`) on success. -/
def fencedMatchAt (l : List Char) : Option String :=
  if "```".toList.isPrefixOf l then
    let afterTicks := l.drop 3
    let afterJson :=
      if "json".toList.isPrefixOf afterTicks then afterTicks.drop 4 else afterTicks
    match afterJson.dropWhile pyIsSpace with
    | '{' :: tail => (lazyFenceBody [] tail).map (fun body => "\x7b" ++ String.mk body ++ "\x7d")
    | _ => Option.none
  else Option.none

/-- Leftmost-match search: try the matcher at every start position, in
order (the semantics of `re.search`). -/
def scanFirst (f : List Char → Option α) : List Char → Option α
  | [] => f []
  | l@(_ :: rest) =>
    match f l with
    | some a => some a
    | Option.none => scanFirst f rest

/-- Group 1 of strategy 2's regex on the whole text, if it matches. -/
def fencedCandidate (text : String) : Option String :=
  scanFirst fencedMatchAt text.toList

/-- Strategy 3's pattern `\{.*\}` (DOTALL) anchored at the head of `l`:
requires a `{` with some `}` after it; the greedy `.*` extends the match
to the last `}` of the text. -/
def braceMatchAt (l : List Char) : Option String :=
  match l with
  | '{' :: rest =>
    let upToLastClose := (rest.reverse.dropWhile (fun c => c ≠ '}')).reverse
    if upToLastClose.isEmpty then Option.none
    else some ("\x7b" ++ String.mk upToLastClose)
  | _ => Option.none

/-- The match of strategy 3's regex on the whole text, if any. -/
def braceCandidate (text : String) : Option String :=
  scanFirst braceMatchAt text.toList

/-- Embedding of `PlannerAgent.parse_plan_json` (planner_agent.py lines
88-109).  `loads` stands for `json.loads` restricted to success
(`some`) / `JSONDecodeError` (`none`); the decoded value type is
abstract. -/
def parsePlanJson {α : Type} (loads : String → Option α) (text : String) : Option α :=
  match loads text with
  | some v => some v
  | Option.none =>
    match (fencedCandidate text).bind loads with
    | some v => some v
    | Option.none => (braceCandidate text).bind loads

/-! ## Manager watcher (`src/openclaw-gateway/agents/manager_watcher.py`)

`ManagerWatcherAgent.heartbeat_loop` (lines 62-96) is driven by a list of
per-iteration observations: the stop flag sampled at the top of the
`while`, the value `time.monotonic() - started` (modelled as a rational),
and whether the two DB calls of the iteration raise.  The loop body only
ever calls `store.heartbeat_agent_run`, `store.add_event` and the
progress callback; the effect vocabulary also contains a
`cancelSupervisedTask` constructor precisely so that "the watcher never
cancels the task" is expressible as its absence from every trace. -/

structure WatchObs where
  stopped : Bool
  elapsed : ℚ
  hbOk : Bool
  evOk : Bool

inductive WatchEffect where
  | heartbeat
  | event (eventType : String) (elapsed : ℚ)
  | progressCall (eventType : String)
  | cancelSupervisedTask
  deriving DecidableEq

/-- Embedding of `heartbeat_loop`.  Each list element is one `while`
iteration; an exhausted list models the caller setting `stop_event` (the
loop itself never terminates otherwise).

Control flow per iteration, from the source: exit if `stop_event` is set;
`await self.heartbeat(...)` (a raise lands in the `except Exception`
branch, which sleeps and continues); if not yet nudged and
`elapsed >= nudge_after_seconds`, set `nudged = True` *before* emitting
the `manager_nudge` event (so a raising `store.add_event` still consumes
the single nudge); the progress-callback exception handler is local, so
the callback is invoked whenever the event was recorded. -/
def heartbeatLoop (nudgeAfter : ℚ) : List WatchObs → Bool → List WatchEffect
  | [], _ => []
  | o :: rest, nudged =>
    if o.stopped then []
    else if ¬ o.hbOk then heartbeatLoop nudgeAfter rest nudged
    else if ¬ nudged ∧ nudgeAfter ≤ o.elapsed then
      if o.evOk then
        WatchEffect.heartbeat ::
          WatchEffect.event "manager_nudge" o.elapsed ::
          WatchEffect.progressCall "manager_nudge" ::
          heartbeatLoop nudgeAfter rest true
      else
        WatchEffect.heartbeat :: heartbeatLoop nudgeAfter rest true
    else
      WatchEffect.heartbeat :: heartbeatLoop nudgeAfter rest nudged

/-- Number of `manager_nudge` events in a trace. -/
def nudgeCount (effects : List WatchEffect) : Nat :=
  (effects.filter (fun e =>
    match e with
    | .event t _ => t = "manager_nudge"
    | _ => false)).length

/-! ## Worker main loop (`src/openclaw-gateway/orchestrator/worker.py`)

`Worker.run` (lines 66-152) and `Worker._execute_task` (lines 223-271),
projected onto the state the claims speak about: the project status and
the per-task statuses.  The environment supplies, for each task, whether
its execution (`_execute_task`'s DB updates and `_conversation_loop`)
returns normally or raises, plus the outcome of the final-testing phase
and the cancel flag sampled at each iteration of the task loop.  Milestone
bookkeeping and event notifications touch neither status and are elided;
the pause gate only suspends and is elided likewise. -/

inductive TaskStatus where
  | pending | inProgress | completed | failed | skipped
  deriving Repr, DecidableEq

inductive ProjectStatus where
  | ideation | planning | approved | coding | testing | paused
  | completed | failed | cancelled
  deriving Repr, DecidableEq

/-- How one task execution attempt (or the final-testing phase) ends:
normal return with the conversation loop's final text, or an exception
propagating out. -/
inductive TaskOutcome where
  | ok (finalText : String)
  | raises
  deriving Repr, DecidableEq

structure WorkerRunResult where
  projectStatus : ProjectStatus
  taskStatuses : List TaskStatus
  deriving Repr, DecidableEq

/-- The task loop of `Worker.run`, one entry of `outcomes` per task, with
`i` the number of tasks already handled (the index at which `cancel` is
sampled).  A task that runs is first marked `in_progress`; on normal
return `_execute_task` marks it `completed`; an exception leaves it
`in_progress` and propagates to `run`'s handler, which sets the project
status to `failed` and stops.  After all tasks, `_final_testing` runs
and the project is marked `completed` (its exceptions hit the same
handler). -/
def workerRunAux (cancel : Nat → Bool) (finalTesting : TaskOutcome) :
    List TaskOutcome → Nat → ProjectStatus × List TaskStatus
  | [], _ =>
    match finalTesting with
    | .raises => (.failed, [])
    | .ok _ => (.completed, [])
  | o :: rest, i =>
    if cancel i then
      (.cancelled, .pending :: rest.map (fun _ => .pending))
    else
      match o with
      | .raises => (.failed, .inProgress :: rest.map (fun _ => .pending))
      | .ok _ =>
        let (ps, ts) := workerRunAux cancel finalTesting rest (i + 1)
        (ps, .completed :: ts)

/-- Embedding of `Worker.run` from the `status="coding"` update onward. -/
def workerRun (cancel : Nat → Bool) (outcomes : List TaskOutcome)
    (finalTesting : TaskOutcome) : WorkerRunResult :=
  let (ps, ts) := workerRunAux cancel finalTesting outcomes 0
  { projectStatus := ps, taskStatuses := ts }

/-! ## Conversation loop (`Worker._conversation_loop`, worker.py 313-411)

The loop is driven by the provider's responses, one per `router.chat`
call made inside the `while`; structural recursion on that list embeds
the loop directly (running out of modelled responses yields a
`needMore` outcome carrying the loop state, an artefact of finiteness,
not a behaviour of the code).  The one further `router.chat` call made
on the exhaustion path is a separate parameter.  `cancel` is
`self.cancel_event.is_set()` sampled at the top of iteration `k`;
`toolExec` is `self._execute_tool` (its effects are studied separately
via `executeTool`; here only the returned string matters). -/

/-- A provider tool call.  `canonInput` is the canonical serialisation
`json.dumps(tc.input, sort_keys=True)` of the call's input. -/
structure ToolCall where
  id : String
  name : String
  canonInput : String
  deriving Repr, DecidableEq

structure ChatResponse where
  text : String
  toolCalls : List ToolCall
  deriving Repr, DecidableEq

/-- One content block of a message. -/
inductive Part where
  | text (s : String)
  | toolUse (tc : ToolCall)
  | toolResult (id name content : String)
  deriving Repr, DecidableEq

/-- A message body: either a plain string or a list of blocks. -/
inductive MsgContent where
  | plain (s : String)
  | parts (ps : List Part)
  deriving Repr, DecidableEq

inductive Msg where
  | user (c : MsgContent)
  | assistant (c : MsgContent)
  deriving Repr, DecidableEq

/-- `Worker._build_assistant_content` (worker.py lines 413-426). -/
def buildAssistantContent (r : ChatResponse) : MsgContent :=
  let ps := (if r.text.isEmpty then [] else [Part.text r.text])
    ++ r.toolCalls.map Part.toolUse
  if ps.isEmpty then .plain r.text else .parts ps

/-- `Worker._ESCALATION_CHAIN` (worker.py line 310). -/
def ESCALATION_CHAIN : List String := ["ollama", "groq", "gemini", "claude"]

/-- `MAX_TOOL_ROUNDS` (worker.py line 38). -/
def MAX_TOOL_ROUNDS : Nat := 30

/-- `Worker._MAX_EMPTY_RETRIES` (worker.py line 311). -/
def MAX_EMPTY_RETRIES : Nat := 3

/-- `sig = f"{tc.name}:{json.dumps(tc.input, sort_keys=True)}"`. -/
def sigOf (tc : ToolCall) : String := tc.name ++ ":" ++ tc.canonInput

/-- The loop-detection `for` over a round's tool calls (worker.py lines
377-385).  `sigs` holds the recorded signatures most-recent-first, so
`sigs.take 3` is `recent_tool_sigs[-3:]` as a set.  A signature present
in that window bumps `escalation_idx`; when the bump reaches the end of
the chain the `for` breaks (skipping the append and the remaining
calls); otherwise the signature is appended. -/
def detectLoops : List ToolCall → Nat → List String → Nat × List String
  | [], esc, sigs => (esc, sigs)
  | tc :: rest, esc, sigs =>
    let sig := sigOf tc
    if sig ∈ sigs.take 3 then
      if ESCALATION_CHAIN.length ≤ esc + 1 then (esc + 1, sigs)
      else detectLoops rest (esc + 1) (sig :: sigs)
    else detectLoops rest esc (sig :: sigs)

/-- The mutable state of `_conversation_loop`, plus `k` (the number of
iterations started, indexing `cancel`) and the trace of `router.chat`
calls made so far (`true` = called with tools). -/
structure LoopState where
  messages : List Msg
  rounds : Nat
  emptyCount : Nat
  recentSigs : List String
  escalationIdx : Nat
  k : Nat
  calls : List Bool
  deriving Repr, DecidableEq

/-- What a finished `_conversation_loop` returns, plus instrumentation:
the round counter, escalation index, chat-call trace, and whether the
exit went through the post-loop summary path. -/
structure LoopResult where
  finalText : String
  messages : List Msg
  rounds : Nat
  escalationIdx : Nat
  calls : List Bool
  viaExhaustion : Bool
  deriving Repr, DecidableEq

inductive LoopOutcome where
  | done (res : LoopResult)
  | needMore (st : LoopState)
  deriving Repr, DecidableEq

/-- The post-`while` path (worker.py lines 401-411): append the summary
instruction, make one `router.chat` call *without* tools, append its
text as a plain assistant message, return its text. -/
def exhaustFinish (finalResp : ChatResponse) (st : LoopState) : LoopResult :=
  { finalText := finalResp.text
    messages := st.messages
      ++ [Msg.user (.plain "You have reached the tool use limit. Summarize what you accomplished."),
          Msg.assistant (.plain finalResp.text)]
    rounds := st.rounds
    escalationIdx := st.escalationIdx
    calls := st.calls ++ [false]
    viaExhaustion := true }

/-- The `while rounds < MAX_TOOL_ROUNDS` loop (worker.py lines 334-399),
one list element consumed per `router.chat` call inside the loop. -/
def convLoopAux (cancel : Nat → Bool) (toolExec : ToolCall → String)
    (finalResp : ChatResponse) :
    List ChatResponse → LoopState → LoopOutcome
  | [], st =>
    -- `while rounds < MAX_TOOL_ROUNDS` / `if self.cancel_event.is_set(): break`
    if MAX_TOOL_ROUNDS ≤ st.rounds ∨ cancel st.k then .done (exhaustFinish finalResp st)
    else .needMore st
  | r :: rest, st =>
    if MAX_TOOL_ROUNDS ≤ st.rounds ∨ cancel st.k then .done (exhaustFinish finalResp st)
    else if r.text.toList.all pyIsSpace ∧ r.toolCalls.isEmpty then
      -- empty response: bump empty_count, escalate every third miss
      if MAX_EMPTY_RETRIES ≤ st.emptyCount + 1 then
        if ESCALATION_CHAIN.length ≤ st.escalationIdx + 1 then
          .done (exhaustFinish finalResp
            { st with k := st.k + 1, calls := st.calls ++ [true]
                      emptyCount := 0, escalationIdx := st.escalationIdx + 1 })
        else
          convLoopAux cancel toolExec finalResp rest
            { st with k := st.k + 1, calls := st.calls ++ [true]
                      emptyCount := 0, escalationIdx := st.escalationIdx + 1 }
      else
        convLoopAux cancel toolExec finalResp rest
          { st with k := st.k + 1, calls := st.calls ++ [true]
                    emptyCount := st.emptyCount + 1 }
    else if r.toolCalls.isEmpty then
      .done { finalText := r.text
              messages := st.messages ++ [Msg.assistant (buildAssistantContent r)]
              rounds := st.rounds
              escalationIdx := st.escalationIdx
              calls := st.calls ++ [true]
              viaExhaustion := false }
    else
      convLoopAux cancel toolExec finalResp rest
        { messages := st.messages
            ++ [Msg.assistant (buildAssistantContent r),
                Msg.user (.parts (r.toolCalls.map
                  (fun tc => Part.toolResult tc.id tc.name (toolExec tc))))]
          rounds := st.rounds + 1
          emptyCount := 0
          recentSigs := (detectLoops r.toolCalls st.escalationIdx st.recentSigs).2
          escalationIdx := (detectLoops r.toolCalls st.escalationIdx st.recentSigs).1
          k := st.k + 1
          calls := st.calls ++ [true] }

/-- `Worker._conversation_loop` with the initial state of worker.py lines
328-332 (messages copied, all counters zero). -/
def conversationLoop (cancel : Nat → Bool) (toolExec : ToolCall → String)
    (finalResp : ChatResponse) (resps : List ChatResponse)
    (messages : List Msg) : LoopOutcome :=
  convLoopAux cancel toolExec finalResp resps
    { messages := messages, rounds := 0, emptyCount := 0, recentSigs := []
      escalationIdx := 0, k := 0, calls := [] }

/-! ## Accessors and concrete inputs used by the theorems below -/

/-- Escalation index visible in either loop outcome. -/
def LoopOutcome.escOf : LoopOutcome → Nat
  | .done r => r.escalationIdx
  | .needMore st => st.escalationIdx

/-- Round counter of a finished loop, if it finished. -/
def LoopOutcome.roundsOf : LoopOutcome → Option Nat
  | .done r => some r.rounds
  | .needMore _ => Option.none

def LoopOutcome.viaExhaustionOf : LoopOutcome → Option Bool
  | .done r => some r.viaExhaustion
  | .needMore _ => Option.none

/-- A provider response carrying one concrete tool call
(`file_read` with canonical input `\x7b\x7d`). -/
def loopToolCall : ToolCall := { id := "1", name := "file_read", canonInput := "\x7b\x7d" }

def loopResp : ChatResponse := { text := "reading", toolCalls := [loopToolCall] }

/-- A provider response with no text and no tool calls. -/
def emptyResp : ChatResponse := { text := "", toolCalls := [] }

/-- 30 tool-call responses with pairwise distinct inputs. -/
def thirtyToolResps : List ChatResponse :=
  (List.range 30).map
    (fun i => { text := "t", toolCalls := [{ id := "i", name := "file_read", canonInput := toString i }] })

/-- A string whose UTF-8 encoding is 1 MiB + 1 bytes. -/
def bigContent : String := String.mk (List.replicate 1048577 'a')

/-- Toy `json.loads` used to exercise `parsePlanJson`: decodes exactly the
object text the fenced sample below contains. -/
def toyLoads : String → Option Nat :=
  fun s => if s = "\x7b\"k\": 1\x7d" then some 7 else Option.none

/-- Sample model output: not valid JSON as a whole, with the plan object
inside a ```` ```json ```` fence. -/
def fencedSample : String := "Here is the plan:\n```json\n\x7b\"k\": 1\x7d\n```\ndone"

/-- Two watcher iterations past the nudge threshold, no failures. -/
def watchObsSample : List WatchObs :=
  [{ stopped := false, elapsed := 130, hbOk := true, evOk := true },
   { stopped := false, elapsed := 150, hbOk := true, evOk := true }]

/-! # Theorems -/

/-- Claim C5, counterexample: when the subprocess times out the handler
does return returncode `-1`, but its stderr is the sentence
`"Process timed out after 120s and was killed."`, not the string
`"timed out"` the claim requires. -/
theorem claim5_counterexample :
    (runAction SUBPROCESS_TIMEOUT .timedOut).dict.returncode = -1 ∧
    (runAction SUBPROCESS_TIMEOUT .timedOut).dict.stderr ≠ "timed out" ∧
    (runAction SUBPROCESS_TIMEOUT .timedOut).dict.stderr =
      "Process timed out after 120s and was killed." := by
  refine ⟨by decide, by decide, by decide⟩

/-- Claim C5 as amended: for every subprocess action whose child exceeds
its per-call timeout, the process is killed and the handler returns
returncode `-1`, empty stdout, and stderr
`"Process timed out after <timeout>s and was killed."`. -/
theorem claim5_amended (timeout : Nat) :
    runAction timeout .timedOut =
      { killed := true
        dict := { returncode := -1
                  stdout := ""
                  stderr := s!"Process timed out after {timeout}s and was killed." } } := rfl

/-- Claim C4, counterexample: a `web_search` tool call executed by the
orchestrator `Worker` is served by the in-process `WebSearcher` (the
`localSearch` effect) and produces no dispatch to the Agent over the
channel — refuting "never by code running inside the Gateway process". -/
theorem claim4_counterexample :
    (executeTool { approve := true, searchReply := "SR", agentReply := "AR" }
        "web_search" [("query", PVal.str "q")]).1 =
      [ToolEffect.localSearch (.str "q") (.int 5)] ∧
    ((executeTool { approve := true, searchReply := "SR", agentReply := "AR" }
        "web_search" [("query", PVal.str "q")]).1.all (fun e => !e.isAgentPost)) = true := by
  refine ⟨by decide, by decide⟩

/-- Claim C4 as amended: in the skills-based path, `SearchSkill.execute`
dispatches `web_search` to the Agent over the channel with
`confirmed=True`; but the orchestrator `Worker._execute_tool` executes
`web_search` locally in the Gateway via its `WebSearcher` and performs no
channel dispatch. -/
theorem claim4_amended (agentReply : String) (toolInput : PDict) (env : ExecuteToolEnv) :
    searchSkillExecute agentReply "web_search" toolInput =
      ([SkillEffect.sendToAgent "web_search"
          [("query", toolInput.getD "query" (.str "")),
           ("num_results", toolInput.getD "num_results" (.int 5))] true],
       agentReply) ∧
    executeTool env "web_search" toolInput =
      ([ToolEffect.localSearch (toolInput.getD "query" (.str ""))
          (toolInput.getD "num_results" (.int 5))],
       env.searchReply) := by
  constructor
  · simp [searchSkillExecute]
  · simp [executeTool]

/-- Claim C7, counterexample: when the operator denies a `git_push`, the
string returned into the conversation is
`"Action 'git_push' was denied by the user."`, not the error string
`"denied by user"`. -/
theorem claim7_counterexample :
    (executeTool { approve := false, searchReply := "SR", agentReply := "AR" }
        "git_push" []).2 ≠ "denied by user" ∧
    (executeTool { approve := false, searchReply := "SR", agentReply := "AR" }
        "git_push" []).2 = "Action 'git_push' was denied by the user." := by
  refine ⟨by decide, by decide⟩

/-- Claim C7 as amended: for every tool whose name is in `ALWAYS_CONFIRM`,
the Worker requests operator approval before dispatching; on denial it
dispatches nothing and returns
`"Action '<name>' was denied by the user."`; on approval it dispatches to
the agent with `confirmed=True`. -/
theorem claim7_amended (env : ExecuteToolEnv) (name : String) (input : PDict)
    (h : name ∈ ALWAYS_CONFIRM) :
    (env.approve = false →
      executeTool env name input =
        ([ToolEffect.approvalRequest name], s!"Action '{name}' was denied by the user.")) ∧
    (env.approve = true →
      executeTool env name input =
        ([ToolEffect.approvalRequest name, ToolEffect.agentPost name true], env.agentReply)) := by
  simp only [ALWAYS_CONFIRM, List.mem_cons, List.mem_singleton, List.not_mem_nil, or_false] at h
  rcases h with rfl | rfl <;>
    refine ⟨fun ha => ?_, fun ha => ?_⟩ <;>
    simp [executeTool, ALWAYS_CONFIRM, ha]

/-- Claim C7 witness: the amended behaviour at the concrete denied
`git_push`. -/
theorem claim7_witness :
    executeTool { approve := false, searchReply := "SR", agentReply := "AR" } "git_push" [] =
      ([ToolEffect.approvalRequest "git_push"],
       "Action 'git_push' was denied by the user.") :=
  (claim7_amended { approve := false, searchReply := "SR", agentReply := "AR" }
      "git_push" [] (by decide)).1 rfl

/-- Claim C10, counterexample: `num_results` given as the non-integer
(string) value `"7"` does not default to 5 — Python `int("7")` converts
it, and 7 results are requested. -/
theorem claim10_counterexample :
    webSearchNumResults [("num_results", PVal.str "7")] = 7 ∧
    webSearchNumResults [("num_results", PVal.str "7")] ≠ 5 := by
  refine ⟨by decide, by decide⟩

/-- Claim C2: the escalation chain advances after the *second* occurrence
of an identical tool call within the last three recorded signatures —
after two consecutive rounds carrying the same `file_read` call the
escalation index is already 1 — whereas the empty-response trigger does
require three consecutive empty responses (two are not enough).  This
contradicts the claim's (and the source comment's) "same call 3x" reading
of the loop-detection trigger. -/
theorem claim2_escalates_on_second_repeat :
    LoopOutcome.escOf
      (conversationLoop (fun _ => false) (fun _ => "r") { text := "s", toolCalls := [] }
        [loopResp] []) = 0 ∧
    LoopOutcome.escOf
      (conversationLoop (fun _ => false) (fun _ => "r") { text := "s", toolCalls := [] }
        [loopResp, loopResp] []) = 1 ∧
    LoopOutcome.escOf
      (conversationLoop (fun _ => false) (fun _ => "r") { text := "s", toolCalls := [] }
        [emptyResp, emptyResp] []) = 0 ∧
    LoopOutcome.escOf
      (conversationLoop (fun _ => false) (fun _ => "r") { text := "s", toolCalls := [] }
        [emptyResp, emptyResp, emptyResp] []) = 1 := by
  refine ⟨by decide, by decide, by decide, by decide⟩

/-- Claim C10 as amended: the requested result count always lies in
`[1, 10]`; a missing parameter yields 5; a value `int()` cannot convert
(raising `TypeError`/`ValueError`) yields 5; and any convertible value is
converted and clamped — so integer values below 1 become 1 and above 10
become 10, while convertible non-integers (numeric strings, booleans) are
converted rather than defaulted. -/
theorem claim10_amended (params : PDict) :
    (1 ≤ webSearchNumResults params ∧ webSearchNumResults params ≤ 10) ∧
    (params.get? "num_results" = Option.none → webSearchNumResults params = 5) ∧
    (∀ v, params.get? "num_results" = some v → pyInt v = Option.none →
      webSearchNumResults params = 5) ∧
    (∀ n : Int, params.get? "num_results" = some (.int n) →
      webSearchNumResults params = min (max n 1) 10) := by
  refine ⟨⟨?_, ?_⟩, fun h => ?_, fun v h1 h2 => ?_, fun n h1 => ?_⟩
  · unfold webSearchNumResults
    exact le_min (le_max_right _ _) (by norm_num)
  · unfold webSearchNumResults
    exact min_le_right _ _
  · simp [webSearchNumResults, PDict.getD, h, pyInt]
  · simp [webSearchNumResults, PDict.getD, h1, h2]
  · simp [webSearchNumResults, PDict.getD, h1, pyInt]

/-- Claim C10 witness: the amended behaviour at concrete inputs — missing
parameter gives 5, `99` clamps to 10. -/
theorem claim10_witness :
    webSearchNumResults [] = 5 ∧
    webSearchNumResults [("num_results", PVal.int 99)] = 10 := by
  constructor
  · exact (claim10_amended []).2.1 rfl
  · have h := (claim10_amended [("num_results", PVal.int 99)]).2.2.2 99 rfl
    simpa using h

/-- UTF-8 length of a replicated character list. -/
theorem utf8Len_replicate (n : Nat) (c : Char) :
    String.utf8Len (List.replicate n c) = n * c.utf8Size := by
  induction n with
  | zero => simp
  | succ n ih =>
    simp [List.replicate_succ, String.utf8Len_cons, ih, Nat.succ_mul, Nat.add_comm]

/-- The concrete oversized content weighs 1 MiB + 1 bytes. -/
theorem bigContent_size : bigContent.utf8ByteSize = 1048577 := by
  unfold bigContent
  rw [String.utf8ByteSize_mk, utf8Len_replicate]
  norm_num [show Char.utf8Size 'a' = 1 from by decide]

/-- Claim C6: `file_write` content whose UTF-8 encoding exceeds
1 MiB (1,048,576 bytes) is rejected with returncode 1 and the
`"Content exceeds 1 MB limit."` message, and nothing is written; content
of at most 1 MiB passes the size check and proceeds to the write attempt
(succeeding, or failing only with the environment's `OSError`). -/
theorem claim6_size_cap (params : PDict) (diskError : Option String) (fp content : String)
    (hfile : params.getD "file" PVal.none = .str fp)
    (hne : fp.isEmpty = false)
    (hcontent : params.getD "content" (.str "") = .str content) :
    (1048576 < content.utf8ByteSize →
      fileWrite params diskError =
        .ok { effects := []
              dict := { returncode := 1, stdout := "", stderr := "Content exceeds 1 MB limit." } }) ∧
    (content.utf8ByteSize ≤ 1048576 →
      fileWrite params diskError =
        .ok (match diskError with
          | some err =>
            { effects := [], dict := { returncode := 1, stdout := "", stderr := err } }
          | Option.none =>
            { effects := [FsEffect.write fp content]
              dict := { returncode := 0
                        stdout := "Wrote " ++ toString content.length ++ " bytes to " ++ fp ++ "."
                        stderr := "" } })) := by
  unfold fileWrite
  rw [hfile, hcontent]
  simp only [hne, Bool.false_eq_true, if_false]
  constructor
  · intro h
    rw [if_pos h]
  · intro h
    rw [if_neg (by omega)]
    cases diskError <;> rfl

/-- Claim C6 witness: a 1,048,577-byte content is rejected without a
write; a 2-byte content is written. -/
theorem claim6_witness :
    1048576 < bigContent.utf8ByteSize ∧
    fileWrite [("file", PVal.str "/ws/a.txt"), ("content", PVal.str bigContent)] Option.none =
      .ok { effects := []
            dict := { returncode := 1, stdout := "", stderr := "Content exceeds 1 MB limit." } } ∧
    fileWrite [("file", PVal.str "/ws/a.txt"), ("content", PVal.str "hi")] Option.none =
      .ok { effects := [FsEffect.write "/ws/a.txt" "hi"]
            dict := { returncode := 0, stdout := "Wrote 2 bytes to /ws/a.txt.", stderr := "" } } := by
  have hbig : 1048576 < bigContent.utf8ByteSize := by rw [bigContent_size]; omega
  refine ⟨hbig, ?_, ?_⟩
  · exact (claim6_size_cap [("file", PVal.str "/ws/a.txt"), ("content", PVal.str bigContent)]
      Option.none "/ws/a.txt" bigContent rfl rfl rfl).1 hbig
  · rfl

/-- Claim C8: plan parsing tries the three strategies in order — whole
text, fenced block, leftmost `\x7b…\x7d` span — returning the first
successful parse; when the first two fail the result is exactly the
third's (so `none` when all three fail). -/
theorem claim8_parse_order {α : Type} (loads : String → Option α) (text : String) :
    (∀ v, loads text = some v → parsePlanJson loads text = some v) ∧
    (loads text = Option.none → ∀ v, (fencedCandidate text).bind loads = some v →
      parsePlanJson loads text = some v) ∧
    (loads text = Option.none → (fencedCandidate text).bind loads = Option.none →
      parsePlanJson loads text = (braceCandidate text).bind loads) := by
  unfold parsePlanJson
  refine ⟨fun v h => ?_, fun h1 v h2 => ?_, fun h1 h2 => ?_⟩
  · rw [h]
  · rw [h1, h2]
  · rw [h1, h2]

/-- Claim C8 witness: on a sample output that is not JSON as a whole, the
fenced block is extracted and parsed by the second strategy. -/
theorem claim8_witness :
    toyLoads fencedSample = Option.none ∧
    fencedCandidate fencedSample = some "\x7b\"k\": 1\x7d" ∧
    parsePlanJson toyLoads fencedSample = some 7 := by
  refine ⟨by decide, by decide, ?_⟩
  exact (claim8_parse_order toyLoads fencedSample).2.1 (by decide) 7 (by decide)

theorem nudgeCount_nil : nudgeCount [] = 0 := rfl

theorem nudgeCount_heartbeat (l : List WatchEffect) :
    nudgeCount (WatchEffect.heartbeat :: l) = nudgeCount l := by
  simp [nudgeCount, List.filter]

theorem nudgeCount_progress (t : String) (l : List WatchEffect) :
    nudgeCount (WatchEffect.progressCall t :: l) = nudgeCount l := by
  simp [nudgeCount, List.filter]

theorem nudgeCount_nudge (e : ℚ) (l : List WatchEffect) :
    nudgeCount (WatchEffect.event "manager_nudge" e :: l) = nudgeCount l + 1 := by
  simp [nudgeCount, List.filter]

/-- Once `nudged` is set, a watcher run emits no further nudge events;
before it is set, it emits at most one. -/
theorem heartbeatLoop_nudge_le (na : ℚ) :
    ∀ (obs : List WatchObs) (nudged : Bool),
      nudgeCount (heartbeatLoop na obs nudged) ≤ if nudged then 0 else 1 := by
  intro obs
  induction obs with
  | nil => intro nudged; cases nudged <;> simp [heartbeatLoop, nudgeCount_nil]
  | cons o rest ih =>
    intro nudged
    cases nudged with
    | true =>
      suffices h : nudgeCount (heartbeatLoop na (o :: rest) true) ≤ 0 by simpa using h
      simp only [heartbeatLoop]
      by_cases h1 : o.stopped = true
      · rw [if_pos h1]; simp [nudgeCount_nil]
      · rw [if_neg h1]
        by_cases h2 : o.hbOk = true
        · rw [if_neg (by simp [h2]), if_neg (by simp), nudgeCount_heartbeat]
          simpa using ih true
        · rw [if_pos h2]
          simpa using ih true
    | false =>
      suffices h : nudgeCount (heartbeatLoop na (o :: rest) false) ≤ 1 by simpa using h
      simp only [heartbeatLoop]
      by_cases h1 : o.stopped = true
      · rw [if_pos h1]; simp [nudgeCount_nil]
      · rw [if_neg h1]
        by_cases h2 : o.hbOk = true
        · rw [if_neg (by simp [h2])]
          by_cases h3 : na ≤ o.elapsed
          · rw [if_pos ⟨by simp, h3⟩]
            have htr : nudgeCount (heartbeatLoop na rest true) ≤ 0 := by simpa using ih true
            by_cases h4 : o.evOk = true
            · rw [if_pos h4, nudgeCount_heartbeat, nudgeCount_nudge, nudgeCount_progress]
              omega
            · rw [if_neg h4, nudgeCount_heartbeat]
              omega
          · rw [if_neg (by simp [h3]), nudgeCount_heartbeat]
            simpa using ih false
        · rw [if_pos h2]
          simpa using ih false

/-- Every event a watcher run emits is a `manager_nudge` whose recorded
elapsed time has reached the threshold. -/
theorem heartbeatLoop_event_threshold (na : ℚ) :
    ∀ (obs : List WatchObs) (nudged : Bool) (t : String) (e : ℚ),
      WatchEffect.event t e ∈ heartbeatLoop na obs nudged →
        t = "manager_nudge" ∧ na ≤ e := by
  intro obs
  induction obs with
  | nil => intro nudged t e h; simp [heartbeatLoop] at h
  | cons o rest ih =>
    intro nudged t e h
    simp only [heartbeatLoop] at h
    by_cases h1 : o.stopped = true
    · rw [if_pos h1] at h; simp at h
    · rw [if_neg h1] at h
      by_cases h2 : o.hbOk = true
      · rw [if_neg (by simp [h2])] at h
        by_cases h3 : (¬ nudged = true) ∧ na ≤ o.elapsed
        · rw [if_pos h3] at h
          by_cases h4 : o.evOk = true
          · rw [if_pos h4] at h
            simp only [List.mem_cons] at h
            rcases h with h | h | h | h
            · exact absurd h (by simp)
            · have he : t = "manager_nudge" ∧ e = o.elapsed := by
                simpa using h
              exact ⟨he.1, he.2 ▸ h3.2⟩
            · exact absurd h (by simp)
            · exact ih true t e h
          · rw [if_neg h4] at h
            simp only [List.mem_cons] at h
            rcases h with h | h
            · exact absurd h (by simp)
            · exact ih true t e h
        · rw [if_neg h3] at h
          simp only [List.mem_cons] at h
          rcases h with h | h
          · exact absurd h (by simp)
          · exact ih nudged t e h
      · rw [if_pos h2] at h
        exact ih nudged t e h

/-- A watcher run never cancels (or otherwise touches) the supervised
task. -/
theorem heartbeatLoop_no_cancel (na : ℚ) :
    ∀ (obs : List WatchObs) (nudged : Bool),
      WatchEffect.cancelSupervisedTask ∉ heartbeatLoop na obs nudged := by
  intro obs
  induction obs with
  | nil => intro nudged; simp [heartbeatLoop]
  | cons o rest ih =>
    intro nudged
    simp only [heartbeatLoop]
    by_cases h1 : o.stopped = true
    · rw [if_pos h1]; simp
    · rw [if_neg h1]
      by_cases h2 : o.hbOk = true
      · rw [if_neg (by simp [h2])]
        by_cases h3 : (¬ nudged = true) ∧ na ≤ o.elapsed
        · rw [if_pos h3]
          by_cases h4 : o.evOk = true
          · rw [if_pos h4]
            simp only [List.mem_cons, not_or]
            exact ⟨by simp, by simp, by simp, ih true⟩
          · rw [if_neg h4]
            simp only [List.mem_cons, not_or]
            exact ⟨by simp, ih true⟩
        · rw [if_neg h3]
          simp only [List.mem_cons, not_or]
          exact ⟨by simp, ih nudged⟩
      · rw [if_pos h2]
        exact ih nudged

/-- Claim C9: over any supervised run, the watcher's heartbeat loop emits
at most one `manager_nudge` event, every emitted event is a
`manager_nudge` recorded only once elapsed time has reached the nudge
threshold, and the loop never cancels the supervised task — its only
effects are heartbeats, event appends and progress callbacks. -/
theorem claim9_watcher_nudge (na : ℚ) (obs : List WatchObs) :
    nudgeCount (heartbeatLoop na obs false) ≤ 1 ∧
    (∀ t e, WatchEffect.event t e ∈ heartbeatLoop na obs false →
      t = "manager_nudge" ∧ na ≤ e) ∧
    WatchEffect.cancelSupervisedTask ∉ heartbeatLoop na obs false := by
  refine ⟨?_, fun t e h => heartbeatLoop_event_threshold na obs false t e h,
    heartbeatLoop_no_cancel na obs false⟩
  have := heartbeatLoop_nudge_le na obs false
  simpa using this

/-- Claim C9 witness: a run that crosses the 120 s threshold twice still
nudges at most once, and the nudge it emitted carries an elapsed time at
or past the threshold. -/
theorem claim9_witness :
    nudgeCount (heartbeatLoop 120 watchObsSample false) ≤ 1 ∧ (120 : ℚ) ≤ 130 := by
  refine ⟨(claim9_watcher_nudge 120 watchObsSample).1, ?_⟩
  exact ((claim9_watcher_nudge 120 watchObsSample).2.1 "manager_nudge" 130 (by decide)).2

/-- No branch of the worker's task loop ever assigns a task the `failed`
status. -/
theorem workerRunAux_no_failed (cancel : Nat → Bool) (ft : TaskOutcome) :
    ∀ (outcomes : List TaskOutcome) (i : Nat),
      TaskStatus.failed ∉ (workerRunAux cancel ft outcomes i).2 := by
  intro outcomes
  induction outcomes with
  | nil => intro i; cases ft <;> simp [workerRunAux]
  | cons o rest ih =>
    intro i
    simp only [workerRunAux]
    by_cases hc : cancel i = true
    · rw [if_pos hc]
      simp [List.mem_map]
    · rw [if_neg hc]
      cases o with
      | raises => simp [List.mem_map]
      | ok t =>
        have := ih (i + 1)
        rcases hrec : workerRunAux cancel ft rest (i + 1) with ⟨ps, ts⟩
        rw [hrec] at this
        simp only [hrec]
        simpa using this

/-- The worker marks the project `failed` only when some task execution
or the final-testing phase raises. -/
theorem workerRunAux_failed_source (cancel : Nat → Bool) (ft : TaskOutcome) :
    ∀ (outcomes : List TaskOutcome) (i : Nat),
      (workerRunAux cancel ft outcomes i).1 = ProjectStatus.failed →
      TaskOutcome.raises ∈ outcomes ∨ ft = .raises := by
  intro outcomes
  induction outcomes with
  | nil =>
    intro i h
    cases ft with
    | raises => exact Or.inr rfl
    | ok t => simp [workerRunAux] at h
  | cons o rest ih =>
    intro i h
    simp only [workerRunAux] at h
    by_cases hc : cancel i = true
    · rw [if_pos hc] at h; simp at h
    · rw [if_neg hc] at h
      cases o with
      | raises => exact Or.inl (List.mem_cons_self _ _)
      | ok t =>
        rcases hrec : workerRunAux cancel ft rest (i + 1) with ⟨ps, ts⟩
        rw [hrec] at h
        simp only at h
        have := ih (i + 1) (hrec ▸ h)
        rcases this with hmem | hft
        · exact Or.inl (List.mem_cons_of_mem _ hmem)
        · exact Or.inr hft

/-- With no cancellation, a raising task execution does fail the project
(the fatal-exception path). -/
theorem workerRunAux_raises_fails (cancel : Nat → Bool) (ft : TaskOutcome)
    (hcancel : ∀ j, cancel j = false) :
    ∀ (outcomes : List TaskOutcome) (i : Nat),
      TaskOutcome.raises ∈ outcomes →
      (workerRunAux cancel ft outcomes i).1 = ProjectStatus.failed := by
  intro outcomes
  induction outcomes with
  | nil => intro i h; simp at h
  | cons o rest ih =>
    intro i h
    simp only [workerRunAux, hcancel i, Bool.false_eq_true, if_false]
    cases o with
    | raises => rfl
    | ok t =>
      rcases hrec : workerRunAux cancel ft rest (i + 1) with ⟨ps, ts⟩
      simp only [hrec]
      have hmem : TaskOutcome.raises ∈ rest := by
        rcases List.mem_cons.mp h with h' | h'
        · exact absurd h'.symm (by simp)
        · exact h'
      have := ih (i + 1) hmem
      rw [hrec] at this
      simpa using this

/-- Claim C1, counterexample: when the first task's execution raises, the
Worker does not mark it `failed` and does not proceed — the task is left
`in_progress`, the second task is never started (still `pending`), and
the project itself is immediately marked `failed`. -/
theorem claim1_counterexample :
    ¬ ((workerRun (fun _ => false) [TaskOutcome.raises, TaskOutcome.ok "x"]
          (TaskOutcome.ok "t")).taskStatuses.get? 0 = some TaskStatus.failed ∧
       (workerRun (fun _ => false) [TaskOutcome.raises, TaskOutcome.ok "x"]
          (TaskOutcome.ok "t")).projectStatus ≠ ProjectStatus.failed) ∧
    workerRun (fun _ => false) [TaskOutcome.raises, TaskOutcome.ok "x"] (TaskOutcome.ok "t") =
      { projectStatus := .failed, taskStatuses := [.inProgress, .pending] } := by
  refine ⟨by decide, by decide⟩

/-- Claim C1 as amended: the Worker has no per-task failure handling — no
task is ever assigned the `failed` status; a raising task execution
propagates to the fatal-exception handler, which marks the *project*
`failed` and stops (it does not proceed to later tasks); and the project
reaches `failed` only when some task execution or the final-testing phase
raises. -/
theorem claim1_amended (cancel : Nat → Bool) (outcomes : List TaskOutcome)
    (ft : TaskOutcome) :
    TaskStatus.failed ∉ (workerRun cancel outcomes ft).taskStatuses ∧
    ((workerRun cancel outcomes ft).projectStatus = ProjectStatus.failed →
      TaskOutcome.raises ∈ outcomes ∨ ft = .raises) ∧
    ((∀ j, cancel j = false) → TaskOutcome.raises ∈ outcomes →
      (workerRun cancel outcomes ft).projectStatus = ProjectStatus.failed) := by
  unfold workerRun
  rcases hrec : workerRunAux cancel ft outcomes 0 with ⟨ps, ts⟩
  refine ⟨?_, ?_, ?_⟩
  · have := workerRunAux_no_failed cancel ft outcomes 0
    rw [hrec] at this
    simpa using this
  · intro h
    exact workerRunAux_failed_source cancel ft outcomes 0 (by rw [hrec]; simpa using h)
  · intro hc hmem
    have := workerRunAux_raises_fails cancel ft hc outcomes 0 hmem
    rw [hrec] at this
    simpa using this

/-- Claim C1 witness: the amended behaviour at a concrete two-task plan
whose second task raises. -/
theorem claim1_witness :
    TaskStatus.failed ∉
      (workerRun (fun _ => false) [TaskOutcome.ok "a", TaskOutcome.raises]
        (TaskOutcome.ok "s")).taskStatuses ∧
    (workerRun (fun _ => false) [TaskOutcome.ok "a", TaskOutcome.raises]
        (TaskOutcome.ok "s")).projectStatus = ProjectStatus.failed := by
  refine ⟨(claim1_amended (fun _ => false) [TaskOutcome.ok "a", TaskOutcome.raises]
      (TaskOutcome.ok "s")).1, ?_⟩
  exact (claim1_amended (fun _ => false) [TaskOutcome.ok "a", TaskOutcome.raises]
      (TaskOutcome.ok "s")).2.2 (fun _ => rfl) (by decide)

theorem all_true_append_true {l : List Bool} (h : ∀ c ∈ l, c = true) :
    ∀ c ∈ l ++ [true], c = true := by
  intro c hm
  rcases List.mem_append.mp hm with h1 | h1
  · exact h c h1
  · simpa using h1

/-- What the post-loop summary path guarantees: the round count is
preserved, the returned text is the final (tool-less) call's text, that
call is the single tool-less one at the end of the call trace, and the
message log ends with the summary instruction and the summary answer. -/
theorem exhaustFinish_spec (finalResp : ChatResponse) (st : LoopState)
    (hr : st.rounds ≤ MAX_TOOL_ROUNDS) (hc : ∀ c ∈ st.calls, c = true) :
    (exhaustFinish finalResp st).rounds ≤ MAX_TOOL_ROUNDS ∧
    ((exhaustFinish finalResp st).viaExhaustion = true →
      (exhaustFinish finalResp st).finalText = finalResp.text ∧
      (exhaustFinish finalResp st).calls.getLast? = some false ∧
      (∀ c ∈ (exhaustFinish finalResp st).calls.dropLast, c = true) ∧
      ∃ pre, (exhaustFinish finalResp st).messages = pre ++
        [Msg.user (.plain "You have reached the tool use limit. Summarize what you accomplished."),
         Msg.assistant (.plain finalResp.text)]) := by
  refine ⟨hr, fun _ => ⟨rfl, ?_, ?_, ⟨st.messages, rfl⟩⟩⟩
  · simp [exhaustFinish]
  · simp only [exhaustFinish, List.dropLast_concat]
    exact hc

/-- Invariant of the conversation loop: starting from a state within the
round limit and with an all-with-tools call trace, any finished run stays
within `MAX_TOOL_ROUNDS` tool rounds, and any exit through the summary
path returns the final call's text, makes that exactly one tool-less call
(the last), and appends the two summary messages. -/
theorem convLoopAux_done_spec (cancel : Nat → Bool) (toolExec : ToolCall → String)
    (finalResp : ChatResponse) :
    ∀ (resps : List ChatResponse) (st : LoopState) (res : LoopResult),
      st.rounds ≤ MAX_TOOL_ROUNDS →
      (∀ c ∈ st.calls, c = true) →
      convLoopAux cancel toolExec finalResp resps st = .done res →
      res.rounds ≤ MAX_TOOL_ROUNDS ∧
      (res.viaExhaustion = true →
        res.finalText = finalResp.text ∧
        res.calls.getLast? = some false ∧
        (∀ c ∈ res.calls.dropLast, c = true) ∧
        ∃ pre, res.messages = pre ++
          [Msg.user (.plain "You have reached the tool use limit. Summarize what you accomplished."),
           Msg.assistant (.plain finalResp.text)]) := by
  intro resps
  induction resps with
  | nil =>
    intro st res hr hc heq
    simp only [convLoopAux] at heq
    by_cases hg : MAX_TOOL_ROUNDS ≤ st.rounds ∨ cancel st.k = true
    · rw [if_pos hg] at heq
      cases heq
      exact exhaustFinish_spec finalResp st hr hc
    · rw [if_neg hg] at heq
      cases heq
  | cons r rest ih =>
    intro st res hr hc heq
    simp only [convLoopAux] at heq
    by_cases hg : MAX_TOOL_ROUNDS ≤ st.rounds ∨ cancel st.k = true
    · rw [if_pos hg] at heq
      cases heq
      exact exhaustFinish_spec finalResp st hr hc
    · rw [if_neg hg] at heq
      by_cases hempty : (r.text.toList.all pyIsSpace = true) ∧ (r.toolCalls.isEmpty = true)
      · rw [if_pos hempty] at heq
        by_cases hthr : MAX_EMPTY_RETRIES ≤ st.emptyCount + 1
        · rw [if_pos hthr] at heq
          by_cases hchain : ESCALATION_CHAIN.length ≤ st.escalationIdx + 1
          · rw [if_pos hchain] at heq
            cases heq
            exact exhaustFinish_spec finalResp _ hr (all_true_append_true hc)
          · rw [if_neg hchain] at heq
            refine ih _ res ?_ ?_ heq
            · exact hr
            · exact all_true_append_true hc
        · rw [if_neg hthr] at heq
          refine ih _ res ?_ ?_ heq
          · exact hr
          · exact all_true_append_true hc
      · rw [if_neg hempty] at heq
        by_cases htc : r.toolCalls.isEmpty = true
        · rw [if_pos htc] at heq
          cases heq
          exact ⟨hr, fun hfalse => by simp at hfalse⟩
        · rw [if_neg htc] at heq
          have hr' : st.rounds + 1 ≤ MAX_TOOL_ROUNDS := by
            rcases Nat.lt_or_ge st.rounds MAX_TOOL_ROUNDS with hlt | hge
            · omega
            · exact absurd (Or.inl hge) hg
          refine ih _ res ?_ ?_ heq
          · exact hr'
          · exact all_true_append_true hc

/-- Claim C3: every invocation of the conversation loop executes at most
`MAX_TOOL_ROUNDS` (30) tool rounds, and whenever the loop terminates
through the exhaustion path it appends the summarize instruction as a
user message, makes exactly one final chat call without tools (the last
call of the trace), and returns that call's text. -/
theorem claim3_round_limit (cancel : Nat → Bool) (toolExec : ToolCall → String)
    (finalResp : ChatResponse) (resps : List ChatResponse) (messages : List Msg)
    (res : LoopResult)
    (h : conversationLoop cancel toolExec finalResp resps messages = .done res) :
    res.rounds ≤ MAX_TOOL_ROUNDS ∧
    (res.viaExhaustion = true →
      res.finalText = finalResp.text ∧
      res.calls.getLast? = some false ∧
      (∀ c ∈ res.calls.dropLast, c = true) ∧
      ∃ pre, res.messages = pre ++
        [Msg.user (.plain "You have reached the tool use limit. Summarize what you accomplished."),
         Msg.assistant (.plain finalResp.text)]) :=
  convLoopAux_done_spec cancel toolExec finalResp resps _ res (Nat.zero_le _)
    (by intro c hm; simp at hm) h

/-- Claim C3 witness: a run of 30 consecutive tool rounds exhausts the
round limit; the loop finishes through the summary path with the final
call's text. -/
theorem claim3_witness :
    LoopOutcome.roundsOf
      (conversationLoop (fun _ => false) (fun _ => "ok") { text := "done", toolCalls := [] }
        thirtyToolResps []) = some 30 ∧
    ∃ res,
      conversationLoop (fun _ => false) (fun _ => "ok") { text := "done", toolCalls := [] }
        thirtyToolResps [] = .done res ∧
      res.rounds ≤ MAX_TOOL_ROUNDS ∧ res.viaExhaustion = true ∧ res.finalText = "done" := by
  have hrounds : LoopOutcome.roundsOf
      (conversationLoop (fun _ => false) (fun _ => "ok") { text := "done", toolCalls := [] }
        thirtyToolResps []) = some 30 := by decide
  have hvx : LoopOutcome.viaExhaustionOf
      (conversationLoop (fun _ => false) (fun _ => "ok") { text := "done", toolCalls := [] }
        thirtyToolResps []) = some true := by decide
  refine ⟨hrounds, ?_⟩
  cases hout : conversationLoop (fun _ => false) (fun _ => "ok")
      { text := "done", toolCalls := [] } thirtyToolResps [] with
  | done res =>
    rw [hout] at hvx
    have hres : res.viaExhaustion = true := by
      simpa [LoopOutcome.viaExhaustionOf] using hvx
    have hspec := claim3_round_limit (fun _ => false) (fun _ => "ok")
      { text := "done", toolCalls := [] } thirtyToolResps [] res hout
    exact ⟨res, rfl, hspec.1, hres, (hspec.2 hres).1⟩
  | needMore stx =>
    rw [hout] at hrounds
    simp [LoopOutcome.roundsOf] at hrounds

end Clawd
